import Mathlib

/-!
Verification of the weekly scheduling subsystem of the armitage-news-scraper
repository, a shallow embedding of `src/scheduler.py`.

Modelling conventions:
* Python's `random` module is modelled by an explicit entropy stream `Entropy`
  (a list of naturals, consumed head first; an exhausted stream yields 0).
  `random.randint` clamps a drawn value into the requested range,
  `random.shuffle` is a fuelled Fisher-Yates walk driven by the stream,
  `random.sample(pop, k)` is "shuffle, then take the first k".  All theorems
  about the randomized components are quantified over every stream, so they
  hold whatever pseudo-random values Python actually produces.
* Timestamps (`datetime.now()`) are abstract naturals passed as parameters;
  date/week strings are opaque parameters.
* The filesystem, crontab and collaborators are gathered into a `World`
  record: the persisted schedule document, the `data/input` / `data/output`
  file lists, the crontab entries, the log of invocations of the digest-send
  collaborator, plus two pieces of instrumentation used only by theorems: the
  full trace of documents written by `_save_schedule` (`saves`) and a counter
  of entries into `_send_digest_and_cleanup` (`digestRuns`).
* The work-group collaborator `scrape_companies` either returns or raises;
  this is a `Bool` parameter `outcome` of `run_session` (the `try/except`
  of lines 278-284 maps both cases to a normal return of the embedding).
-/

/-- Entropy stream feeding the model of Python's `random`. -/
abbrev Entropy := List Nat

/-- Draw one value from the stream (0 once the stream is exhausted). -/
def nextNat : Entropy → Nat × Entropy
  | [] => (0, [])
  | n :: rest => (n, rest)

/-- Models `random.randint(lo, hi)`: an integer in `[lo, hi]`, both ends
inclusive (the drawn entropy value is reduced mod the size of the range). -/
def randint (lo hi : Nat) (r : Entropy) : Nat × Entropy :=
  (lo + (nextNat r).1 % (hi + 1 - lo), (nextNat r).2)

/-- Fuelled Fisher-Yates shuffle: models `random.shuffle`.  At each step an
index into the remaining list is drawn, that element is moved to the front,
and the rest is shuffled recursively.  With fuel `xs.length` every
permutation is reachable by some stream, and the result is a permutation of
the input for every stream. -/
def shuffleAux {α : Type} : Nat → List α → Entropy → List α × Entropy
  | 0, xs, r => (xs, r)
  | fuel + 1, xs, r =>
    match xs with
    | [] => ([], r)
    | x :: t =>
      let i := (nextNat r).1 % (x :: t).length
      match (x :: t).drop i with
      | [] => (x :: t, (nextNat r).2)
      | picked :: rest =>
        let p := shuffleAux fuel ((x :: t).take i ++ rest) (nextNat r).2
        (picked :: p.1, p.2)

/-- Models `random.shuffle(xs)` (returning the shuffled copy). -/
def shuffle {α : Type} (xs : List α) (r : Entropy) : List α × Entropy :=
  shuffleAux xs.length xs r

/-- Models `random.sample(xs, k)`: `k` elements chosen without replacement. -/
def sample (xs : List Nat) (k : Nat) (r : Entropy) : List Nat × Entropy :=
  ((shuffle xs r).1.take k, (shuffle xs r).2)

/-- The loop of `_partition_companies` (src/scheduler.py lines 72-79): walk
the shuffled list, at each step taking a group of size
`randint(MIN_GROUP_SIZE, min(MAX_GROUP_SIZE, remaining))`.  The fuel starts
at the list length; since every step consumes at least one element the fuel
never runs out on the initial call. -/
def partitionAux {α : Type} : Nat → List α → Entropy → List (List α) × Entropy
  | 0, _, r => ([], r)
  | fuel + 1, xs, r =>
    if xs.isEmpty then ([], r)
    else
      let maxTake := min 4 xs.length
      let gsize := (randint 1 maxTake r).1
      let p := partitionAux fuel (xs.drop gsize) (randint 1 maxTake r).2
      (xs.take gsize :: p.1, p.2)

/-- `_partition_companies` (src/scheduler.py lines 67-80): shuffle, then split
into random groups of size 1-4. -/
def partition_companies {α : Type} (companies : List α) (r : Entropy) :
    List (List α) × Entropy :=
  partitionAux (shuffle companies r).1.length (shuffle companies r).1
    (shuffle companies r).2

/-- `available_days` (src/scheduler.py line 85): cron days 1=Mon .. 6=Sat. -/
def availableDays : List Nat := [1, 2, 3, 4, 5, 6]

/-- `SCRAPE_HOUR_START` (src/scheduler.py line 35). -/
def SCRAPE_HOUR_START : Nat := 9

/-- `SCRAPE_HOUR_END` (src/scheduler.py line 36, exclusive). -/
def SCRAPE_HOUR_END : Nat := 21

/-- The `G > 6` day-distribution loop of `_assign_schedule_slots`
(src/scheduler.py lines 91-97): each day gets `base` sessions plus one more
while the remainder counter is still positive (the counter decrements once
per day, so days `1..remainder` get the extra session). -/
def distributeDays : List Nat → Nat → Nat → List Nat
  | [], _, _ => []
  | day :: ds, base, rem =>
    List.replicate (base + if 0 < rem then 1 else 0) day ++
      distributeDays ds base (rem - 1)

/-- The day-assignment phase of `_assign_schedule_slots`
(src/scheduler.py lines 85-98), producing the local `day_assignments`. -/
def day_assignments (numSessions : Nat) (r : Entropy) : List Nat × Entropy :=
  if numSessions ≤ availableDays.length then
    sample availableDays numSessions r
  else
    shuffle
      (distributeDays availableDays (numSessions / availableDays.length)
        (numSessions % availableDays.length)) r

/-- The bounded retry loop of `_assign_schedule_slots`
(src/scheduler.py lines 105-110): redraw the hour up to the given number of
times, returning the first hour whose `(day, hour)` pair is unused, or `none`
once the retries are exhausted. -/
def tryHour : Nat → Nat → List (Nat × Nat) → Entropy → Option Nat × Entropy
  | 0, _, _, r => (none, r)
  | tries + 1, day, used, r =>
    let h := (randint SCRAPE_HOUR_START (SCRAPE_HOUR_END - 1) r).1
    let r1 := (randint SCRAPE_HOUR_START (SCRAPE_HOUR_END - 1) r).2
    if (day, h) ∈ used then tryHour tries day used r1 else (some h, r1)

/-- The time-assignment loop of `_assign_schedule_slots`
(src/scheduler.py lines 100-114): for each assigned day, try 50 hour draws
avoiding `(day, hour)` collisions; on success record the pair in `used_slots`,
on failure accept one more unchecked draw (the same-hour collision the source
deliberately tolerates, line 111-112).  The minute is drawn unconditionally. -/
def assignSlotsLoop :
    List Nat → List (Nat × Nat) → Entropy → List (Nat × Nat × Nat) × Entropy
  | [], _, r => ([], r)
  | day :: ds, used, r =>
    match (tryHour 50 day used r).1 with
    | some h =>
      let r1 := (tryHour 50 day used r).2
      let m := (randint 0 59 r1).1
      let p := assignSlotsLoop ds (used ++ [(day, h)]) (randint 0 59 r1).2
      ((day, h, m) :: p.1, p.2)
    | none =>
      let r1 := (tryHour 50 day used r).2
      let h := (randint SCRAPE_HOUR_START (SCRAPE_HOUR_END - 1) r1).1
      let r2 := (randint SCRAPE_HOUR_START (SCRAPE_HOUR_END - 1) r1).2
      let m := (randint 0 59 r2).1
      let p := assignSlotsLoop ds used (randint 0 59 r2).2
      ((day, h, m) :: p.1, p.2)

/-- `_assign_schedule_slots` (src/scheduler.py lines 83-116). -/
def assign_schedule_slots (numSessions : Nat) (r : Entropy) :
    List (Nat × Nat × Nat) × Entropy :=
  assignSlotsLoop (day_assignments numSessions r).1 []
    (day_assignments numSessions r).2

/-- Projection of a slot onto the `(day, hour)` pair the non-collision
invariant talks about. -/
def dayHour (s : Nat × Nat × Nat) : Nat × Nat := (s.1, s.2.1)

/-- Occurrence count of a day in a day-assignment list (used to state which
days receive the extra session when `G > 6`). -/
def countDay (d : Nat) : List Nat → Nat
  | [] => 0
  | x :: t => (if x = d then 1 else 0) + countDay d t

/-- Session status (src/scheduler.py: the `status` field values `"pending"`,
`"in_progress"`, `"completed"`, `"failed"`). -/
inductive Status
  | pending
  | in_progress
  | completed
  | failed
deriving DecidableEq

/-- `status in ("completed", "failed")` — the terminal statuses
(src/scheduler.py line 246). -/
def Status.isTerminal : Status → Bool
  | .completed => true
  | .failed => true
  | _ => false

/-- One session object of the schedule document
(src/scheduler.py lines 136-147).  Timestamps are abstract naturals
(`none` = JSON `null`). -/
structure Session where
  session_id : String
  day : Nat
  day_name : String
  date : String
  hour : Nat
  minute : Nat
  companies : List (String × String)
  status : Status
  started_at : Option Nat
  completed_at : Option Nat
deriving DecidableEq

/-- The weekly schedule document (src/scheduler.py lines 152-158). -/
structure Schedule where
  week_of : String
  generated_at : String
  total_companies : Nat
  digest_sent : Bool
  sessions : List Session
deriving DecidableEq

/-- The two reserved crontab marker strings `# ARMITAGE_SESSION` and
`# ARMITAGE_META` (src/scheduler.py lines 30-31). -/
inductive CronTag
  | sessionTag
  | metaTag
deriving DecidableEq

/-- One crontab line.  `tag` records which reserved marker (if any) the line
carries; `legacyMain` records whether an untagged line is a legacy
`main.py` entry (the predicate of `_remove_old_style_cron`, line 236). -/
structure CronEntry where
  tag : Option CronTag
  legacyMain : Bool
  body : String
deriving DecidableEq

/-- The world state the scheduler reads and writes: the schedule document at
`SCHEDULE_FILE`, the `data/input` and `data/output` directories, the crontab,
and the log of digest-send collaborator invocations.  `saves` (every document
ever passed to `_save_schedule`, oldest first) and `digestRuns` (number of
entries into `_send_digest_and_cleanup`) are instrumentation for the
theorems; no operation reads them. -/
structure World where
  scheduleFile : Option Schedule
  inputFiles : List String
  outputFiles : List String
  crontab : List CronEntry
  digestCalls : List (List (List Char))
  saves : List Schedule
  digestRuns : Nat
deriving DecidableEq

/-- `_load_schedule` (src/scheduler.py lines 48-52): the current document, or
`none` when the file does not exist. -/
def load_schedule (w : World) : Option Schedule := w.scheduleFile

/-- `_save_schedule` (src/scheduler.py lines 55-60): overwrite the document
(and record it in the instrumentation trace). -/
def save_schedule (schedule : Schedule) (w : World) : World :=
  { w with scheduleFile := some schedule, saves := w.saves ++ [schedule] }

/-- Whitespace for the model of Python `str.strip()`. -/
def isPythonSpace (c : Char) : Bool :=
  c == ' ' || c == '\t' || c == '\n' || c == '\r'

/-- Models Python `str.split(",")` on a character list. -/
def splitOnComma (s : List Char) : List (List Char) :=
  s.foldr
    (fun c acc =>
      if c = ',' then [] :: acc
      else
        match acc with
        | [] => [[c]]
        | cur :: rest => (c :: cur) :: rest)
    [[]]

/-- Models Python `str.strip()`. -/
def strip (s : List Char) : List Char :=
  ((s.dropWhile isPythonSpace).reverse.dropWhile isPythonSpace).reverse

/-- The recipient parsing of `_send_digest_and_cleanup`
(src/scheduler.py lines 299-300):
`[r.strip() for r in recipients_str.split(",") if r.strip()]`.
The environment variable `EMAIL_RECIPIENTS` is the `env` parameter; an unset
variable is the empty string (the `os.getenv` default). -/
def parseRecipients (env : List Char) : List (List Char) :=
  ((splitOnComma env).map strip).filter (fun recipient => !recipient.isEmpty)

/-- Is this crontab entry tagged with the session marker? -/
def isSessionCron (e : CronEntry) : Bool :=
  match e.tag with
  | some CronTag.sessionTag => true
  | _ => false

/-- Is this crontab entry an untagged legacy `main.py` entry? -/
def isLegacyMainCron (e : CronEntry) : Bool :=
  match e.tag with
  | none => e.legacyMain
  | some _ => false

/-- `remove_session_crons` (src/scheduler.py lines 213-219): drop every line
carrying the session marker, keep everything else verbatim. -/
def remove_session_crons (w : World) : World :=
  { w with crontab := w.crontab.filter (fun e => !isSessionCron e) }

/-- `_remove_old_style_cron` (src/scheduler.py lines 232-238): drop untagged
legacy `main.py` lines. -/
def remove_old_style_cron (w : World) : World :=
  { w with crontab := w.crontab.filter (fun e => !isLegacyMainCron e) }

/-- The cron line installed for one session
(src/scheduler.py lines 184-188). -/
def session_cron_entry (s : Session) : CronEntry :=
  { tag := some CronTag.sessionTag, legacyMain := false, body := s.session_id }

/-- `install_session_crons` (src/scheduler.py lines 175-193): remove every
previously tagged session line, then append one tagged line per session. -/
def install_session_crons (schedule : Schedule) (w : World) : World :=
  { w with
    crontab := w.crontab.filter (fun e => !isSessionCron e) ++
      schedule.sessions.map session_cron_entry }

/-- Find a session by id — the lookup loop of `run_session`
(src/scheduler.py lines 256-260), first match wins. -/
def findSession : List Session → String → Option Session
  | [], _ => none
  | s :: rest, sid => if s.session_id = sid then some s else findSession rest sid

/-- Replace the first session with the given id (the source mutates the
found session object in place inside the schedule dict). -/
def updateFirst (f : Session → Session) : List Session → String → List Session
  | [], _ => []
  | s :: rest, sid =>
    if s.session_id = sid then f s :: rest else s :: updateFirst f rest sid

/-- The in-place mutation of `run_session` lines 271-272: mark in-progress
and stamp `started_at`. -/
def markStarted (t1 : Nat) (s : Session) : Session :=
  { s with status := Status.in_progress, started_at := some t1 }

/-- The in-place mutation of `run_session` lines 280-285: terminal status
from the collaborator outcome, and stamp `completed_at`. -/
def markFinished (outcome : Bool) (t2 : Nat) (s : Session) : Session :=
  { s with
    status := if outcome then Status.completed else Status.failed,
    completed_at := some t2 }

/-- The whole-document result of the first save of `run_session`
(lines 271-273). -/
def step_in_progress (schedule : Schedule) (sid : String) (t1 : Nat) :
    Schedule :=
  { schedule with sessions := updateFirst (markStarted t1) schedule.sessions sid }

/-- The whole-document result of the second save of `run_session`
(lines 280-286). -/
def step_finished (schedule : Schedule) (sid : String) (outcome : Bool)
    (t2 : Nat) : Schedule :=
  { schedule with
    sessions := updateFirst (markFinished outcome t2) schedule.sessions sid }

/-- `_all_sessions_done` (src/scheduler.py lines 245-246). -/
def all_sessions_done (schedule : Schedule) : Bool :=
  schedule.sessions.all (fun s => s.status.isTerminal)

/-- `_send_digest_and_cleanup` (src/scheduler.py lines 297-329): invoke the
digest-send collaborator when the parsed recipient list is non-empty (its
boolean result and any exception only affect logging), set `digest_sent`,
persist, empty the `data/input` / `data/output` directories, and remove the
session crontab entries.  `digestRuns` is instrumentation counting entries
into this path. -/
def send_digest_and_cleanup (schedule : Schedule) (env : List Char)
    (w : World) : World :=
  let recipients := parseRecipients env
  let w0 : World := { w with digestRuns := w.digestRuns + 1 }
  let w1 : World :=
    if recipients.isEmpty then w0
    else { w0 with digestCalls := w0.digestCalls ++ [recipients] }
  let w2 := save_schedule { schedule with digest_sent := true } w1
  let w3 : World := { w2 with inputFiles := [], outputFiles := [] }
  remove_session_crons w3

/-- `run_session` (src/scheduler.py lines 249-294).  `outcome` is the
work-group collaborator's behaviour: `true` when `scrape_companies` returns,
`false` when it raises (the `try/except` of lines 278-284 catches every
exception).  `t1`/`t2` are the two `datetime.now()` stamps, `env` is
`EMAIL_RECIPIENTS`. -/
def run_session (sid : String) (outcome : Bool) (t1 t2 : Nat)
    (env : List Char) (w : World) : World :=
  match load_schedule w with
  | none => w
  | some schedule =>
    match findSession schedule.sessions sid with
    | none => w
    | some session =>
      if session.status ≠ Status.pending then w
      else
        let sched1 := step_in_progress schedule sid t1
        let w1 := save_schedule sched1 w
        let sched2 := step_finished sched1 sid outcome t2
        let w2 := save_schedule sched2 w1
        match load_schedule w2 with
        | none => w2
        | some sched3 =>
          if all_sessions_done sched3 = true ∧ sched3.digest_sent = false then
            send_digest_and_cleanup sched3 env w2
          else w2

/-- `DAY_NAMES` (src/scheduler.py lines 40-41). -/
def dayName : Nat → String
  | 1 => "Monday"
  | 2 => "Tuesday"
  | 3 => "Wednesday"
  | 4 => "Thursday"
  | 5 => "Friday"
  | 6 => "Saturday"
  | _ => ""

/-- The `:03d` zero padding of the session id (src/scheduler.py line 137). -/
def pad3 (n : Nat) : String :=
  if n < 10 then "00" ++ Nat.repr n
  else if n < 100 then "0" ++ Nat.repr n
  else Nat.repr n

/-- Strict lexicographic order on `(day, hour, minute)` — the sort key of
src/scheduler.py line 150. -/
def slotKeyLt (a b : Nat × Nat × Nat) : Bool :=
  decide (a.1 < b.1 ∨ (a.1 = b.1 ∧
    (a.2.1 < b.2.1 ∨ (a.2.1 = b.2.1 ∧ a.2.2 < b.2.2))))

/-- Sort key of a session (src/scheduler.py line 150). -/
def sessionKey (s : Session) : Nat × Nat × Nat := (s.day, s.hour, s.minute)

/-- Stable insertion used to model Python's stable `list.sort(key=...)`:
an element is inserted after every element with a key not greater than
its own. -/
def insertByKey (s : Session) : List Session → List Session
  | [] => [s]
  | t :: ts =>
    if slotKeyLt (sessionKey s) (sessionKey t) then s :: t :: ts
    else t :: insertByKey s ts

/-- Models `sessions.sort(key=lambda s: (s["day"], s["hour"], s["minute"]))`
(src/scheduler.py line 150). -/
def sortSessions (l : List Session) : List Session := l.foldr insertByKey []

/-- The session construction loop of `generate_weekly_schedule`
(src/scheduler.py lines 131-147).  `dateFn` models the external date
arithmetic `next_monday + timedelta(days=day-1)` formatted as a string. -/
def mkSessions (groups : List (List (String × String)))
    (slots : List (Nat × Nat × Nat)) (dateFn : Nat → String) : List Session :=
  (List.zip groups slots).enum.map
    (fun p =>
      { session_id := "sess_" ++ pad3 p.1,
        day := p.2.2.1,
        day_name := dayName p.2.2.1,
        date := dateFn p.2.2.1,
        hour := p.2.2.2.1,
        minute := p.2.2.2.2,
        companies := p.2.1,
        status := Status.pending,
        started_at := none,
        completed_at := none })

/-- `generate_weekly_schedule` (src/scheduler.py lines 119-159).  `weekOf`
and `genAt` model the wall-clock-derived strings `next_monday` and
`datetime.now().isoformat()`. -/
def generate_weekly_schedule (companies : List (String × String))
    (r : Entropy) (weekOf genAt : String) (dateFn : Nat → String) : Schedule :=
  let groups := (partition_companies companies r).1
  let slots := (assign_schedule_slots groups.length
    (partition_companies companies r).2).1
  { week_of := weekOf,
    generated_at := genAt,
    total_companies := companies.length,
    digest_sent := false,
    sessions := sortSessions (mkSessions groups slots dateFn) }

/-- `generate_and_install` (src/scheduler.py lines 336-367): first the
previous-week safety net (lines 341-350: if the old schedule exists, its
digest was not sent, and at least one session is terminal, force the digest
path — even when other sessions are still pending), then the legacy cron
removal, then the new schedule — unless the fetched company list
(`companies`, the result of `read_companies_from_csv`) is empty, in which
case it stops. -/
def generate_and_install (companies : List (String × String)) (r : Entropy)
    (weekOf genAt : String) (dateFn : Nat → String) (env : List Char)
    (w : World) : World :=
  let w1 :=
    match load_schedule w with
    | none => w
    | some old =>
      if old.digest_sent = false ∧
          old.sessions.any (fun s => s.status.isTerminal) = true then
        send_digest_and_cleanup old env w
      else w
  let w2 := remove_old_style_cron w1
  if companies.isEmpty then w2
  else
    let schedule := generate_weekly_schedule companies r weekOf genAt dateFn
    install_session_crons schedule (save_schedule schedule w2)

/-- The session the persisted document currently holds under `sid`. -/
def persistedSession (w : World) (sid : String) : Option Session :=
  (load_schedule w).bind (fun schedule => findSession schedule.sessions sid)

/-- The three observable shapes of a persisted session (spec §5): `pending`
with both timestamps null, `in_progress` with `started_at` set and
`completed_at` null, or terminal with both timestamps set. -/
def sessionShapeOK (s : Session) : Prop :=
  (s.status = Status.pending ∧ s.started_at = none ∧ s.completed_at = none) ∨
  (s.status = Status.in_progress ∧ s.started_at ≠ none ∧
    s.completed_at = none) ∨
  (s.status.isTerminal = true ∧ s.started_at ≠ none ∧ s.completed_at ≠ none)

instance (s : Session) : Decidable (sessionShapeOK s) := by
  unfold sessionShapeOK; infer_instance

/-- The filesystem operations `_save_schedule` and `_load_schedule` perform
on `SCHEDULE_FILE`, in source order. -/
inductive FileEvent
  | openTruncate
  | openRead
  | lockExclusive
  | writeDoc
  | readDoc
  | unlock
deriving DecidableEq

/-- The event sequence of `_save_schedule` (src/scheduler.py lines 55-60):
`open(SCHEDULE_FILE, "w")` — which truncates the file the moment it is
opened — then `fcntl.flock(f, LOCK_EX)`, then `json.dump`, then the
unlock. -/
def saveScheduleEvents : List FileEvent :=
  [FileEvent.openTruncate, FileEvent.lockExclusive, FileEvent.writeDoc,
   FileEvent.unlock]

/-- The event sequence of `_load_schedule` (src/scheduler.py lines 48-52):
`open(SCHEDULE_FILE, "r")` then `json.load` — no lock of any kind. -/
def loadScheduleEvents : List FileEvent :=
  [FileEvent.openRead, FileEvent.readDoc]

/-- What the schedule file holds at some instant: the previous document, an
empty (truncated) file, or the freshly written document. -/
inductive FileContent
  | oldDoc
  | empty
  | newDoc
deriving DecidableEq

/-- Effect of one file event on `(content of SCHEDULE_FILE, is the exclusive
lock held)`. -/
def applyFileEvent : FileContent × Bool → FileEvent → FileContent × Bool
  | (_, l), FileEvent.openTruncate => (FileContent.empty, l)
  | (c, _), FileEvent.lockExclusive => (c, true)
  | (_, l), FileEvent.writeDoc => (FileContent.newDoc, l)
  | (c, _), FileEvent.unlock => (c, false)
  | (c, l), FileEvent.openRead => (c, l)
  | (c, l), FileEvent.readDoc => (c, l)

/-- All `(content, lock)` states an event sequence passes through, the
initial state included. -/
def fileStates (st : FileContent × Bool) :
    List FileEvent → List (FileContent × Bool)
  | [] => [st]
  | e :: es => st :: fileStates (applyFileEvent st e) es

/-- Fixture: a completed session with id `"a"`. -/
def exDoneA : Session :=
  { session_id := "a", day := 1, day_name := "Monday", date := "2026-01-05",
    hour := 9, minute := 0, companies := [("acme", "melbourne")],
    status := Status.completed, started_at := some 1, completed_at := some 2 }

/-- Fixture: a pending session with id `"b"`. -/
def exPendB : Session :=
  { session_id := "b", day := 2, day_name := "Tuesday", date := "2026-01-06",
    hour := 10, minute := 30, companies := [("globex", "sydney")],
    status := Status.pending, started_at := none, completed_at := none }

/-- Fixture: a pending session with id `"a"`. -/
def exPendA : Session :=
  { session_id := "a", day := 1, day_name := "Monday", date := "2026-01-05",
    hour := 9, minute := 0, companies := [("acme", "melbourne")],
    status := Status.pending, started_at := none, completed_at := none }

/-- Fixture: an unsent schedule with one completed and one pending
session. -/
def exSchedMixed : Schedule :=
  { week_of := "2026-01-05", generated_at := "2026-01-04T22:00:00",
    total_companies := 2, digest_sent := false,
    sessions := [exDoneA, exPendB] }

/-- Fixture: a world whose persisted schedule is `exSchedMixed`. -/
def exWorldMixed : World :=
  { scheduleFile := some exSchedMixed, inputFiles := ["companies.csv"],
    outputFiles := ["report_acme.json"],
    crontab := [{ tag := some CronTag.sessionTag, legacyMain := false,
                  body := "a" }],
    digestCalls := [], saves := [], digestRuns := 0 }

/-- Fixture: an unsent schedule with a single pending session `"a"`. -/
def exSchedPend : Schedule :=
  { week_of := "2026-01-05", generated_at := "2026-01-04T22:00:00",
    total_companies := 1, digest_sent := false, sessions := [exPendA] }

/-- Fixture: a world whose persisted schedule is `exSchedPend`. -/
def exWorldPend : World :=
  { scheduleFile := some exSchedPend, inputFiles := [], outputFiles := [],
    crontab := [], digestCalls := [], saves := [], digestRuns := 0 }

/-- Fixture: an unsent schedule with the single completed session `"a"`. -/
def exSchedDone : Schedule :=
  { week_of := "2026-01-05", generated_at := "2026-01-04T22:00:00",
    total_companies := 1, digest_sent := false, sessions := [exDoneA] }

/-- Fixture: a world whose persisted schedule is `exSchedDone`. -/
def exWorldDone : World :=
  { scheduleFile := some exSchedDone, inputFiles := [], outputFiles := [],
    crontab := [], digestCalls := [], saves := [], digestRuns := 0 }

/-- Fixture: a schedule whose digest is already sent. -/
def exSchedSent : Schedule :=
  { week_of := "2026-01-05", generated_at := "2026-01-04T22:00:00",
    total_companies := 1, digest_sent := true, sessions := [exDoneA] }

/-- Fixture: a world whose persisted schedule is `exSchedSent`. -/
def exWorldSent : World :=
  { scheduleFile := some exSchedSent, inputFiles := [], outputFiles := [],
    crontab := [], digestCalls := [], saves := [], digestRuns := 0 }

/-! ## Helper lemmas: the randomized components -/

theorem randint_ge (lo hi : Nat) (r : Entropy) : lo ≤ (randint lo hi r).1 :=
  Nat.le_add_right _ _

theorem randint_le (lo hi : Nat) (r : Entropy) (h : lo ≤ hi) :
    (randint lo hi r).1 ≤ hi := by
  show lo + (nextNat r).1 % (hi + 1 - lo) ≤ hi
  have hm : (nextNat r).1 % (hi + 1 - lo) < hi + 1 - lo :=
    Nat.mod_lt _ (by omega)
  omega

theorem shuffleAux_perm {α : Type} :
    ∀ (fuel : Nat) (xs : List α) (r : Entropy),
      ((shuffleAux fuel xs r).1).Perm xs := by
  intro fuel
  induction fuel with
  | zero => intro xs r; exact List.Perm.refl _
  | succ fuel ih =>
    intro xs r
    cases xs with
    | nil => exact List.Perm.refl _
    | cons x t =>
      cases hdrop : (x :: t).drop ((nextNat r).1 % (x :: t).length) with
      | nil =>
        simp only [shuffleAux, hdrop]
        exact List.Perm.refl _
      | cons picked rest =>
        simp only [shuffleAux, hdrop]
        have hsplit : x :: t =
            (x :: t).take ((nextNat r).1 % (x :: t).length) ++
              picked :: rest := by
          conv_lhs =>
            rw [← List.take_append_drop ((nextNat r).1 % (x :: t).length)
              (x :: t)]
          rw [hdrop]
        have h2 : (picked ::
              ((x :: t).take ((nextNat r).1 % (x :: t).length) ++ rest)).Perm
            ((x :: t).take ((nextNat r).1 % (x :: t).length) ++
              picked :: rest) := List.perm_middle.symm
        rw [← hsplit] at h2
        exact ((ih _ _).cons picked).trans h2

theorem shuffle_perm {α : Type} (xs : List α) (r : Entropy) :
    ((shuffle xs r).1).Perm xs :=
  shuffleAux_perm _ _ _

theorem partitionAux_flatten {α : Type} :
    ∀ (fuel : Nat) (xs : List α) (r : Entropy), xs.length ≤ fuel →
      ((partitionAux fuel xs r).1).flatten = xs := by
  intro fuel
  induction fuel with
  | zero =>
    intro xs r h
    have hx : xs = [] := List.eq_nil_of_length_eq_zero (Nat.le_zero.mp h)
    subst hx
    rfl
  | succ fuel ih =>
    intro xs r h
    by_cases hxs : xs.isEmpty = true
    · have hx : xs = [] := by
        cases xs with
        | nil => rfl
        | cons a l => simp [List.isEmpty] at hxs
      subst hx
      rfl
    · have hxs' : xs.isEmpty = false := by
        cases hb : xs.isEmpty
        · rfl
        · exact absurd hb hxs
      have hlen : 1 ≤ xs.length := by
        cases xs with
        | nil => simp [List.isEmpty] at hxs'
        | cons a l => simp
      have hg1 : 1 ≤ (randint 1 (min 4 xs.length) r).1 := randint_ge _ _ _
      simp only [partitionAux, hxs', Bool.false_eq_true, if_false,
        List.flatten_cons]
      rw [ih (xs.drop (randint 1 (min 4 xs.length) r).1) _
        (by rw [List.length_drop]; omega)]
      exact List.take_append_drop _ _

theorem partitionAux_sizes {α : Type} :
    ∀ (fuel : Nat) (xs : List α) (r : Entropy) (g : List α),
      g ∈ (partitionAux fuel xs r).1 → 1 ≤ g.length ∧ g.length ≤ 4 := by
  intro fuel
  induction fuel with
  | zero => intro xs r g hg; simp [partitionAux] at hg
  | succ fuel ih =>
    intro xs r g hg
    by_cases hxs : xs.isEmpty = true
    · have hx : xs = [] := by
        cases xs with
        | nil => rfl
        | cons a l => simp [List.isEmpty] at hxs
      subst hx
      simp [partitionAux] at hg
    · have hxs' : xs.isEmpty = false := by
        cases hb : xs.isEmpty
        · rfl
        · exact absurd hb hxs
      have hlen : 1 ≤ xs.length := by
        cases xs with
        | nil => simp [List.isEmpty] at hxs'
        | cons a l => simp
      simp only [partitionAux, hxs', Bool.false_eq_true, if_false,
        List.mem_cons] at hg
      rcases hg with hEq | hMem
      · subst hEq
        have hge := randint_ge 1 (min 4 xs.length) r
        have hle := randint_le 1 (min 4 xs.length) r (by omega)
        rw [List.length_take]
        omega
      · exact ih _ _ _ hMem

/-- C2: for every input list of (name, location) pairs and every random
stream, `_partition_companies` returns groups whose concatenation is a
permutation of the input (no duplication, no omission), every group has
between 1 and 4 elements, and the empty input yields zero groups. -/
theorem partition_companies_correct {α : Type} (companies : List α)
    (r : Entropy) :
    ((partition_companies companies r).1.flatten).Perm companies ∧
    (∀ g ∈ (partition_companies companies r).1,
      1 ≤ g.length ∧ g.length ≤ 4) ∧
    (companies = [] → (partition_companies companies r).1 = []) := by
  unfold partition_companies
  refine ⟨?_, ?_, ?_⟩
  · rw [partitionAux_flatten _ _ _ (le_refl _)]
    exact shuffle_perm companies r
  · intro g hg
    exact partitionAux_sizes _ _ _ g hg
  · intro h
    subst h
    rfl

/-- Witness for C2 at a concrete three-element input and the empty input. -/
theorem partition_companies_correct_witness :
    ((partition_companies [("acme", "melbourne"), ("globex", "sydney"),
        ("initech", "perth")] ([3, 1, 0, 2, 1] : Entropy)).1.flatten).Perm
      [("acme", "melbourne"), ("globex", "sydney"), ("initech", "perth")] ∧
    (partition_companies ([] : List (String × String)) ([] : Entropy)).1 =
      [] :=
  ⟨(partition_companies_correct _ _).1,
   (partition_companies_correct _ _).2.2 rfl⟩

/-! ## Helper lemmas: day assignment and slot collision -/

theorem countDay_append (d : Nat) (l1 l2 : List Nat) :
    countDay d (l1 ++ l2) = countDay d l1 + countDay d l2 := by
  induction l1 with
  | nil => simp [countDay]
  | cons x t ih => simp [countDay, ih]; omega

theorem countDay_replicate (d x n : Nat) :
    countDay d (List.replicate n x) = if x = d then n else 0 := by
  induction n with
  | zero => simp [countDay, List.replicate]
  | succ n ih =>
    rw [List.replicate_succ]
    simp only [countDay, ih]
    split_ifs <;> omega

theorem countDay_perm (d : Nat) {l1 l2 : List Nat} (h : l1.Perm l2) :
    countDay d l1 = countDay d l2 := by
  induction h with
  | nil => rfl
  | cons x _ ih => simp [countDay, ih]
  | swap x y l => simp [countDay]; omega
  | trans _ _ ih1 ih2 => exact ih1.trans ih2

theorem countDay_distributeDays (base rem : Nat) :
    ∀ d ∈ availableDays,
      countDay d (distributeDays availableDays base rem) =
        base + if d ≤ rem then 1 else 0 := by
  intro d hd
  simp only [availableDays] at hd
  fin_cases hd <;>
  · simp [availableDays, distributeDays, countDay_append, countDay_replicate]
    split_ifs <;> omega

theorem sample_nodup (xs : List Nat) (k : Nat) (r : Entropy)
    (h : xs.Nodup) : ((sample xs k r).1).Nodup := by
  unfold sample
  exact List.Nodup.sublist (List.take_sublist k _)
    ((shuffle_perm xs r).symm.nodup h)

theorem sample_length (xs : List Nat) (k : Nat) (r : Entropy)
    (h : k ≤ xs.length) : ((sample xs k r).1).length = k := by
  unfold sample
  rw [List.length_take, (shuffle_perm xs r).length_eq]
  exact min_eq_left h

theorem sample_subset (xs : List Nat) (k : Nat) (r : Entropy) :
    ∀ d ∈ (sample xs k r).1, d ∈ xs := by
  intro d hd
  unfold sample at hd
  exact (shuffle_perm xs r).mem_iff.mp (List.take_subset _ _ hd)

theorem day_assignments_small (n : Nat) (r : Entropy) (h : n ≤ 6) :
    (day_assignments n r).1 = (sample availableDays n r).1 := by
  have h6 : n ≤ availableDays.length := by simpa [availableDays] using h
  unfold day_assignments
  rw [if_pos h6]

theorem day_assignments_large (n : Nat) (r : Entropy) (h : 6 < n) :
    (day_assignments n r).1 =
      (shuffle (distributeDays availableDays (n / 6) (n % 6)) r).1 := by
  have h6 : ¬(n ≤ availableDays.length) := by
    simpa [availableDays] using Nat.not_le.mpr h
  unfold day_assignments
  rw [if_neg h6]
  rfl

theorem assignSlotsLoop_map_fst :
    ∀ (days : List Nat) (used : List (Nat × Nat)) (r : Entropy),
      ((assignSlotsLoop days used r).1).map (fun s => s.1) = days := by
  intro days
  induction days with
  | nil => intro used r; rfl
  | cons day ds ih =>
    intro used r
    cases htry : (tryHour 50 day used r).1 with
    | some h => simp only [assignSlotsLoop, htry, List.map_cons, ih]
    | none => simp only [assignSlotsLoop, htry, List.map_cons, ih]

theorem assignSlotsLoop_dayHour_fst (days : List Nat)
    (used : List (Nat × Nat)) (r : Entropy) :
    (((assignSlotsLoop days used r).1).map dayHour).map (fun p => p.1) =
      days := by
  rw [List.map_map]
  exact assignSlotsLoop_map_fst days used r

/-- C3 (amended): when the group count is at most 6 every session gets a
distinct day, so no two slots share a `(day, hour)` pair, for every random
stream.  (For larger counts the 50-retry collision avoidance is best-effort
only — see the counterexample.) -/
theorem slots_distinct_day_hour_of_small (numSessions : Nat) (r : Entropy)
    (h : numSessions ≤ 6) :
    (((assign_schedule_slots numSessions r).1).map dayHour).Nodup := by
  have hdays : ((day_assignments numSessions r).1).Nodup := by
    rw [day_assignments_small numSessions r h]
    exact sample_nodup _ _ _ (by decide)
  unfold assign_schedule_slots
  rw [← assignSlotsLoop_dayHour_fst (day_assignments numSessions r).1 []
    (day_assignments numSessions r).2] at hdays
  exact List.Nodup.of_map _ hdays

/-- Witness for the amended C3 at six sessions and a concrete stream. -/
theorem slots_distinct_day_hour_of_small_witness :
    (((assign_schedule_slots 6 ([5, 4, 3, 2, 1, 0] : Entropy)).1).map
      dayHour).Nodup :=
  slots_distinct_day_hour_of_small 6 _ (by decide)

/-- C3 counterexample: at `G = 7` (well below the claimed threshold
`6 × 12 = 72`) the all-zero stream packs two sessions onto day 1, all 50
hour redraws return the already-used hour 9, and the fallback draw of
line 111-112 accepts the collision: two slots share `(day, hour) = (1, 9)`. -/
theorem slot_collision_below_threshold :
    1 ≤ 7 ∧ 7 ≤ 6 * 12 ∧
      ¬(((assign_schedule_slots 7 ([] : Entropy)).1).map dayHour).Nodup := by
  decide

/-- C4 (amended): for `G ≤ 6` the assigner draws `G` distinct days from
`{1..6}`; for `G > 6` the per-day session counts are deterministic — day `d`
receives `G / 6 + 1` sessions when `d ≤ G % 6` and `G / 6` otherwise (the
extra sessions always land on the lowest-numbered days) — and only the
order of the day sequence is randomized (a permutation of the deterministic
distribution). -/
theorem day_distribution_spec :
    (∀ (numSessions : Nat) (r : Entropy), numSessions ≤ 6 →
      ((day_assignments numSessions r).1).Nodup ∧
      ((day_assignments numSessions r).1).length = numSessions ∧
      ∀ d ∈ (day_assignments numSessions r).1, d ∈ availableDays) ∧
    (∀ (numSessions : Nat) (r : Entropy), 6 < numSessions →
      ((day_assignments numSessions r).1).Perm
        (distributeDays availableDays (numSessions / 6) (numSessions % 6)) ∧
      ∀ d ∈ availableDays,
        countDay d (day_assignments numSessions r).1 =
          numSessions / 6 + if d ≤ numSessions % 6 then 1 else 0) := by
  constructor
  · intro n r h
    rw [day_assignments_small n r h]
    exact ⟨sample_nodup _ _ _ (by decide),
      sample_length _ _ _ (by simpa [availableDays] using h),
      sample_subset _ _ _⟩
  · intro n r h
    rw [day_assignments_large n r h]
    refine ⟨shuffle_perm _ _, ?_⟩
    intro d hd
    rw [countDay_perm d (shuffle_perm _ _)]
    exact countDay_distributeDays _ _ d hd

/-- Witness for the amended C4 at three and seven sessions. -/
theorem day_distribution_spec_witness :
    (3 : Nat) ≤ 6 ∧ ((day_assignments 3 ([] : Entropy)).1).Nodup ∧
    ((day_assignments 3 ([] : Entropy)).1).length = 3 ∧
    6 < 7 ∧
    countDay 1 (day_assignments 7 ([] : Entropy)).1 =
      7 / 6 + if 1 ≤ 7 % 6 then 1 else 0 :=
  ⟨by decide, (day_distribution_spec.1 3 [] (by decide)).1,
   (day_distribution_spec.1 3 [] (by decide)).2.1, by decide,
   (day_distribution_spec.2 7 [] (by decide)).2 1 (by decide)⟩

/-- C4 counterexample: the claim's "remainder distributed to a random subset
of days (for some pair of seeds, different days receive the extra session)"
is false — the per-day counts at `G = 7` are identical for every pair of
random streams (the extra session always lands on day 1, never on any
other day). -/
theorem extra_day_not_random :
    (¬ ∃ (r₁ r₂ : Entropy) (d : Nat),
        countDay d (day_assignments 7 r₁).1 ≠
          countDay d (day_assignments 7 r₂).1) ∧
    countDay 1 (day_assignments 7 ([] : Entropy)).1 = 2 ∧
    countDay 2 (day_assignments 7 ([] : Entropy)).1 = 1 := by
  refine ⟨?_, by decide, by decide⟩
  rintro ⟨r₁, r₂, d, hne⟩
  apply hne
  have e1 : countDay d (day_assignments 7 r₁).1 =
      countDay d (distributeDays availableDays (7 / 6) (7 % 6)) := by
    rw [day_assignments_large 7 r₁ (by omega)]
    exact countDay_perm d (shuffle_perm _ _)
  have e2 : countDay d (day_assignments 7 r₂).1 =
      countDay d (distributeDays availableDays (7 / 6) (7 % 6)) := by
    rw [day_assignments_large 7 r₂ (by omega)]
    exact countDay_perm d (shuffle_perm _ _)
  rw [e1, e2]

/-! ## Helper lemmas: the session state machine -/

theorem findSession_mem :
    ∀ (l : List Session) (sid : String) (sess : Session),
      findSession l sid = some sess → sess ∈ l := by
  intro l
  induction l with
  | nil => intro sid sess h; simp [findSession] at h
  | cons s rest ih =>
    intro sid sess h
    by_cases hs : s.session_id = sid
    · simp only [findSession, if_pos hs, Option.some.injEq] at h
      subst h
      exact List.mem_cons_self _ _
    · simp only [findSession, if_neg hs] at h
      exact List.mem_cons_of_mem _ (ih sid sess h)

theorem findSession_updateFirst (f : Session → Session)
    (hf : ∀ s, (f s).session_id = s.session_id) :
    ∀ (l : List Session) (sid : String) (sess : Session),
      findSession l sid = some sess →
      findSession (updateFirst f l sid) sid = some (f sess) := by
  intro l
  induction l with
  | nil => intro sid sess h; simp [findSession] at h
  | cons s rest ih =>
    intro sid sess h
    by_cases hs : s.session_id = sid
    · simp only [findSession, if_pos hs, Option.some.injEq] at h
      subst h
      simp only [updateFirst, if_pos hs, findSession]
      rw [if_pos]
      rw [hf s]
      exact hs
    · simp only [findSession, if_neg hs] at h
      simp only [updateFirst, if_neg hs, findSession, if_neg hs]
      exact ih sid sess h

theorem mem_updateFirst (f : Session → Session) :
    ∀ (l : List Session) (sid : String) (sess s' : Session),
      findSession l sid = some sess → s' ∈ updateFirst f l sid →
      s' ∈ l ∨ s' = f sess := by
  intro l
  induction l with
  | nil => intro sid sess s' h hm; simp [updateFirst] at hm
  | cons s rest ih =>
    intro sid sess s' h hm
    by_cases hs : s.session_id = sid
    · simp only [findSession, if_pos hs, Option.some.injEq] at h
      subst h
      simp only [updateFirst, if_pos hs, List.mem_cons] at hm
      rcases hm with hm | hm
      · exact Or.inr hm
      · exact Or.inl (List.mem_cons_of_mem _ hm)
    · simp only [findSession, if_neg hs] at h
      simp only [updateFirst, if_neg hs, List.mem_cons] at hm
      rcases hm with hm | hm
      · exact Or.inl (hm ▸ List.mem_cons_self _ _)
      · rcases ih sid sess s' h hm with h' | h'
        · exact Or.inl (List.mem_cons_of_mem _ h')
        · exact Or.inr h'

theorem run_session_no_file (sid : String) (outcome : Bool) (t1 t2 : Nat)
    (env : List Char) (w : World) (h : w.scheduleFile = none) :
    run_session sid outcome t1 t2 env w = w := by
  simp only [run_session, load_schedule, h]

theorem run_session_no_session (sid : String) (outcome : Bool) (t1 t2 : Nat)
    (env : List Char) (w : World) (sch : Schedule)
    (h1 : w.scheduleFile = some sch)
    (h2 : findSession sch.sessions sid = none) :
    run_session sid outcome t1 t2 env w = w := by
  simp only [run_session, load_schedule, h1, h2]

theorem run_session_skip_guard (sid : String) (outcome : Bool) (t1 t2 : Nat)
    (env : List Char) (w : World) (sch : Schedule) (sess : Session)
    (h1 : w.scheduleFile = some sch)
    (h2 : findSession sch.sessions sid = some sess)
    (h3 : sess.status ≠ Status.pending) :
    run_session sid outcome t1 t2 env w = w := by
  simp only [run_session, load_schedule, h1, h2]
  rw [if_pos h3]

theorem run_session_pending_eq (sid : String) (outcome : Bool) (t1 t2 : Nat)
    (env : List Char) (w : World) (sch : Schedule) (sess : Session)
    (h1 : w.scheduleFile = some sch)
    (h2 : findSession sch.sessions sid = some sess)
    (h3 : sess.status = Status.pending) :
    run_session sid outcome t1 t2 env w =
      (if all_sessions_done
            (step_finished (step_in_progress sch sid t1) sid outcome t2) =
            true ∧
          (step_finished (step_in_progress sch sid t1) sid outcome
            t2).digest_sent = false then
        send_digest_and_cleanup
          (step_finished (step_in_progress sch sid t1) sid outcome t2) env
          (save_schedule
            (step_finished (step_in_progress sch sid t1) sid outcome t2)
            (save_schedule (step_in_progress sch sid t1) w))
      else
        save_schedule
          (step_finished (step_in_progress sch sid t1) sid outcome t2)
          (save_schedule (step_in_progress sch sid t1) w)) := by
  simp only [run_session, load_schedule, h1, h2]
  rw [if_neg (show ¬(sess.status ≠ Status.pending) by simp [h3])]
  simp only [save_schedule]

theorem sdac_eq (schedule : Schedule) (env : List Char) (w : World) :
    send_digest_and_cleanup schedule env w =
      { scheduleFile := some { schedule with digest_sent := true },
        inputFiles := [],
        outputFiles := [],
        crontab := w.crontab.filter (fun e => !isSessionCron e),
        digestCalls :=
          if (parseRecipients env).isEmpty then w.digestCalls
          else w.digestCalls ++ [parseRecipients env],
        saves := w.saves ++ [{ schedule with digest_sent := true }],
        digestRuns := w.digestRuns + 1 } := by
  unfold send_digest_and_cleanup save_schedule remove_session_crons
  cases h : (parseRecipients env).isEmpty <;> simp [h]

/-- C5: invoking `run_session` on a session whose status is not `pending`
(in_progress, completed, or failed) is a no-op: the whole world — the
persisted document, its `completed_at` values, the save trace, everything —
is unchanged, and no save occurs (re-entrancy guard of lines 266-268). -/
theorem run_session_nonpending_noop (sid : String) (outcome : Bool)
    (t1 t2 : Nat) (env : List Char) (w : World) (sch : Schedule)
    (sess : Session) (h1 : w.scheduleFile = some sch)
    (h2 : findSession sch.sessions sid = some sess)
    (h3 : sess.status ≠ Status.pending) :
    run_session sid outcome t1 t2 env w = w :=
  run_session_skip_guard sid outcome t1 t2 env w sch sess h1 h2 h3

/-- Witness for C5: a second invocation on the already-completed session
`"a"` leaves the world (hence `completed_at`) exactly as it was. -/
theorem run_session_nonpending_noop_witness :
    run_session "a" true 5 6 [] exWorldDone = exWorldDone :=
  run_session_nonpending_noop "a" true 5 6 [] exWorldDone exSchedDone exDoneA
    rfl (by decide) (by decide)

/-- C6: on a pending session, `run_session` absorbs the collaborator's
behaviour (the `outcome` flag models `scrape_companies` returning or
raising — the `try/except` of lines 278-284 catches every exception, so the
embedding always returns normally): the session's persisted status becomes
`completed` on success and `failed` on failure, `completed_at` is stamped
with the second timestamp, the state is terminal, and a later invocation on
that session is a no-op — the runner never re-executes or retries it. -/
theorem run_session_pending_terminal (sid : String) (outcome : Bool)
    (t1 t2 : Nat) (env : List Char) (w : World) (sch : Schedule)
    (sess : Session) (h1 : w.scheduleFile = some sch)
    (h2 : findSession sch.sessions sid = some sess)
    (h3 : sess.status = Status.pending) :
    persistedSession (run_session sid outcome t1 t2 env w) sid =
      some (markFinished outcome t2 (markStarted t1 sess)) ∧
    (markFinished outcome t2 (markStarted t1 sess)).status =
      (if outcome then Status.completed else Status.failed) ∧
    (markFinished outcome t2 (markStarted t1 sess)).completed_at = some t2 ∧
    (markFinished outcome t2 (markStarted t1 sess)).status.isTerminal =
      true ∧
    (∀ (outcome2 : Bool) (t1' t2' : Nat) (env2 : List Char),
      run_session sid outcome2 t1' t2' env2
          (run_session sid outcome t1 t2 env w) =
        run_session sid outcome t1 t2 env w) := by
  have hfind1 : findSession (step_in_progress sch sid t1).sessions sid =
      some (markStarted t1 sess) :=
    findSession_updateFirst (markStarted t1) (fun s => rfl) sch.sessions sid
      sess h2
  have hfind2 : findSession
      (step_finished (step_in_progress sch sid t1) sid outcome t2).sessions
        sid =
      some (markFinished outcome t2 (markStarted t1 sess)) :=
    findSession_updateFirst (markFinished outcome t2) (fun s => rfl) _ sid _
      hfind1
  have hne : (markFinished outcome t2 (markStarted t1 sess)).status ≠
      Status.pending := by
    cases outcome <;> simp [markFinished]
  rw [run_session_pending_eq sid outcome t1 t2 env w sch sess h1 h2 h3]
  by_cases hc : (all_sessions_done
      (step_finished (step_in_progress sch sid t1) sid outcome t2) = true ∧
    (step_finished (step_in_progress sch sid t1) sid outcome
      t2).digest_sent = false)
  · rw [if_pos hc]
    refine ⟨?_, rfl, rfl, by cases outcome <;> rfl, ?_⟩
    · exact hfind2
    · intro o' a b e'
      exact run_session_skip_guard sid o' a b e' _
        { step_finished (step_in_progress sch sid t1) sid outcome t2 with
          digest_sent := true }
        (markFinished outcome t2 (markStarted t1 sess)) rfl hfind2 hne
  · rw [if_neg hc]
    refine ⟨?_, rfl, rfl, by cases outcome <;> rfl, ?_⟩
    · exact hfind2
    · intro o' a b e'
      exact run_session_skip_guard sid o' a b e' _
        (step_finished (step_in_progress sch sid t1) sid outcome t2)
        (markFinished outcome t2 (markStarted t1 sess)) rfl hfind2 hne

/-- Witness for C6: the pending session `"a"` ends `completed` with
`completed_at = 6`, and a second invocation is a no-op. -/
theorem run_session_pending_terminal_witness :
    persistedSession (run_session "a" true 5 6 [] exWorldPend) "a" =
      some (markFinished true 6 (markStarted 5 exPendA)) ∧
    run_session "a" false 7 8 [] (run_session "a" true 5 6 [] exWorldPend) =
      run_session "a" true 5 6 [] exWorldPend :=
  ⟨(run_session_pending_terminal "a" true 5 6 [] exWorldPend exSchedPend
      exPendA rfl (by decide) (by decide)).1,
   (run_session_pending_terminal "a" true 5 6 [] exWorldPend exSchedPend
      exPendA rfl (by decide) (by decide)).2.2.2.2 false 7 8 []⟩

/-- C7: starting from a well-formed document, every document `run_session`
persists (each entry of the save trace, hence what an observer sees after a
crash between any two steps) shows each session in exactly one of the three
shapes: `pending` with both timestamps null, `in_progress` with `started_at`
set and `completed_at` null, or terminal with both timestamps set. -/
theorem run_session_saves_shape_ok (sid : String) (outcome : Bool)
    (t1 t2 : Nat) (env : List Char) (w : World) (sch : Schedule)
    (h0 : w.saves = []) (h1 : w.scheduleFile = some sch)
    (hOK : ∀ s ∈ sch.sessions, sessionShapeOK s) :
    ∀ sch' ∈ (run_session sid outcome t1 t2 env w).saves,
      ∀ s ∈ sch'.sessions, sessionShapeOK s := by
  cases hfind : findSession sch.sessions sid with
  | none =>
    rw [run_session_no_session sid outcome t1 t2 env w sch h1 hfind, h0]
    intro sch' hmem
    simp at hmem
  | some sess =>
    by_cases hp : sess.status = Status.pending
    case neg =>
      rw [run_session_skip_guard sid outcome t1 t2 env w sch sess h1 hfind
        hp, h0]
      intro sch' hmem
      simp at hmem
    case pos =>
      have hsessOK : sessionShapeOK sess := hOK sess (findSession_mem _ _ _ hfind)
      have hpend : sess.started_at = none ∧ sess.completed_at = none := by
        rcases hsessOK with ⟨_, ha, hb⟩ | ⟨hst, _, _⟩ | ⟨hterm, _, _⟩
        · exact ⟨ha, hb⟩
        · rw [hp] at hst; exact absurd hst (by decide)
        · rw [hp] at hterm; exact absurd hterm (by decide)
      have hfind1 : findSession (step_in_progress sch sid t1).sessions sid =
          some (markStarted t1 sess) :=
        findSession_updateFirst (markStarted t1) (fun s => rfl) sch.sessions
          sid sess hfind
      have hOK1 : ∀ s ∈ (step_in_progress sch sid t1).sessions,
          sessionShapeOK s := by
        intro s hs
        rcases mem_updateFirst (markStarted t1) sch.sessions sid sess s hfind
          hs with h | h
        · exact hOK s h
        · subst h
          exact Or.inr (Or.inl ⟨rfl, by simp [markStarted], hpend.2⟩)
      have hOK2 : ∀ s ∈
          (step_finished (step_in_progress sch sid t1) sid outcome
            t2).sessions, sessionShapeOK s := by
        intro s hs
        rcases mem_updateFirst (markFinished outcome t2)
          (step_in_progress sch sid t1).sessions sid (markStarted t1 sess) s
          hfind1 hs with h | h
        · exact hOK1 s h
        · subst h
          refine Or.inr (Or.inr ⟨by cases outcome <;> rfl, ?_, ?_⟩)
          · simp [markFinished, markStarted]
          · simp [markFinished]
      rw [run_session_pending_eq sid outcome t1 t2 env w sch sess h1 hfind
        hp]
      by_cases hc : (all_sessions_done
          (step_finished (step_in_progress sch sid t1) sid outcome t2) =
            true ∧
        (step_finished (step_in_progress sch sid t1) sid outcome
          t2).digest_sent = false)
      · rw [if_pos hc]
        intro sch' hmem
        rw [sdac_eq] at hmem
        simp only [save_schedule, h0, List.nil_append, List.cons_append,
          List.mem_append, List.mem_cons, List.mem_singleton,
          List.not_mem_nil, or_false, false_or] at hmem
        rcases hmem with hmem | hmem | hmem
        · exact hmem ▸ hOK1
        · exact hmem ▸ hOK2
        · subst hmem
          intro s hs
          exact hOK2 s hs
      · rw [if_neg hc]
        intro sch' hmem
        simp only [save_schedule, h0, List.nil_append, List.cons_append,
          List.mem_append, List.mem_cons, List.mem_singleton,
          List.not_mem_nil, or_false, false_or] at hmem
        rcases hmem with hmem | hmem
        · exact hmem ▸ hOK1
        · exact hmem ▸ hOK2

/-- Witness for C7: the first document `run_session` saves for the pending
session `"a"` shows it `in_progress` with `started_at` set and
`completed_at` null. -/
theorem run_session_saves_shape_ok_witness :
    sessionShapeOK (markStarted 5 exPendA) :=
  run_session_saves_shape_ok "a" true 5 6 [] exWorldPend exSchedPend rfl rfl
    (by decide) (step_in_progress exSchedPend "a" 5) (by decide)
    (markStarted 5 exPendA) (by decide)

/-! ## Helper lemmas: the weekly cycle controller -/

theorem gen_digestRuns_none (companies : List (String × String))
    (r : Entropy) (wk ga : String) (df : Nat → String) (env : List Char)
    (w : World) (h : w.scheduleFile = none) :
    (generate_and_install companies r wk ga df env w).digestRuns =
      w.digestRuns := by
  simp only [generate_and_install, load_schedule, h]
  cases hce : companies.isEmpty <;>
    simp [hce, remove_old_style_cron, install_session_crons, save_schedule]

theorem gen_digestRuns_some (companies : List (String × String))
    (r : Entropy) (wk ga : String) (df : Nat → String) (env : List Char)
    (w : World) (old : Schedule) (h : w.scheduleFile = some old) :
    (generate_and_install companies r wk ga df env w).digestRuns =
      if old.digest_sent = false ∧
          old.sessions.any (fun s => s.status.isTerminal) = true then
        w.digestRuns + 1
      else w.digestRuns := by
  by_cases hc : (old.digest_sent = false ∧
      old.sessions.any (fun s => s.status.isTerminal) = true)
  · rw [if_pos hc]
    simp only [generate_and_install, load_schedule, h]
    rw [if_pos hc]
    cases hce : companies.isEmpty <;>
      simp [hce, remove_old_style_cron, install_session_crons, save_schedule,
        sdac_eq]
  · rw [if_neg hc]
    simp only [generate_and_install, load_schedule, h]
    rw [if_neg hc]
    cases hce : companies.isEmpty <;>
      simp [hce, remove_old_style_cron, install_session_crons, save_schedule]

theorem gen_file_empty_none (r : Entropy) (wk ga : String)
    (df : Nat → String) (env : List Char) (w : World)
    (h : w.scheduleFile = none) :
    (generate_and_install [] r wk ga df env w).scheduleFile = none := by
  simp only [generate_and_install, load_schedule, h]
  simp [remove_old_style_cron, h]

theorem gen_file_empty_some (r : Entropy) (wk ga : String)
    (df : Nat → String) (env : List Char) (w : World) (old : Schedule)
    (h : w.scheduleFile = some old) :
    (generate_and_install [] r wk ga df env w).scheduleFile =
      if old.digest_sent = false ∧
          old.sessions.any (fun s => s.status.isTerminal) = true then
        some { old with digest_sent := true }
      else some old := by
  by_cases hc : (old.digest_sent = false ∧
      old.sessions.any (fun s => s.status.isTerminal) = true)
  · rw [if_pos hc]
    simp only [generate_and_install, load_schedule, h]
    rw [if_pos hc]
    simp [remove_old_style_cron, sdac_eq]
  · rw [if_neg hc]
    simp only [generate_and_install, load_schedule, h]
    rw [if_neg hc]
    simp [remove_old_style_cron, h]

/-- C1 (amended): `digest_sent` flips at most once per Schedule document —
neither operation enters the digest path when `digest_sent` is already
true — and `run_session`'s completion check flips it only when every session
is terminal; but `generate_and_install`'s safety net (lines 341-350) flips
it as soon as at least one session is terminal, possibly while other
sessions are still pending (see the counterexample). -/
theorem digest_flip_guarded :
    (∀ (sid : String) (outcome : Bool) (t1 t2 : Nat) (env : List Char)
        (w : World) (sch : Schedule), w.scheduleFile = some sch →
      (run_session sid outcome t1 t2 env w).digestRuns ≠ w.digestRuns →
      sch.digest_sent = false ∧
      ∀ sch',
        (run_session sid outcome t1 t2 env w).scheduleFile = some sch' →
        sch'.digest_sent = true ∧ all_sessions_done sch' = true) ∧
    (∀ (companies : List (String × String)) (r : Entropy) (wk ga : String)
        (df : Nat → String) (env : List Char) (w : World) (sch : Schedule),
      w.scheduleFile = some sch →
      (generate_and_install companies r wk ga df env w).digestRuns ≠
        w.digestRuns →
      sch.digest_sent = false ∧
      ∃ s ∈ sch.sessions, s.status.isTerminal = true) ∧
    (∀ (sid : String) (outcome : Bool) (t1 t2 : Nat) (env : List Char)
        (w : World) (sch : Schedule), w.scheduleFile = some sch →
      sch.digest_sent = true →
      (run_session sid outcome t1 t2 env w).digestRuns = w.digestRuns) ∧
    (∀ (companies : List (String × String)) (r : Entropy) (wk ga : String)
        (df : Nat → String) (env : List Char) (w : World) (sch : Schedule),
      w.scheduleFile = some sch → sch.digest_sent = true →
      (generate_and_install companies r wk ga df env w).digestRuns =
        w.digestRuns) := by
  refine ⟨?_, ?_, ?_, ?_⟩
  · intro sid outcome t1 t2 env w sch h1 hne
    cases hfind : findSession sch.sessions sid with
    | none =>
      rw [run_session_no_session sid outcome t1 t2 env w sch h1 hfind]
        at hne
      exact absurd rfl hne
    | some sess =>
      by_cases hp : sess.status = Status.pending
      · rw [run_session_pending_eq sid outcome t1 t2 env w sch sess h1 hfind
          hp] at hne ⊢
        by_cases hc : (all_sessions_done
            (step_finished (step_in_progress sch sid t1) sid outcome t2) =
              true ∧
          (step_finished (step_in_progress sch sid t1) sid outcome
            t2).digest_sent = false)
        · refine ⟨hc.2, ?_⟩
          rw [if_pos hc]
          intro sch' heq
          rw [sdac_eq] at heq
          have heq' := Option.some.inj heq
          subst heq'
          exact ⟨rfl, hc.1⟩
        · rw [if_neg hc] at hne
          exact absurd rfl hne
      · rw [run_session_skip_guard sid outcome t1 t2 env w sch sess h1 hfind
          hp] at hne
        exact absurd rfl hne
  · intro companies r wk ga df env w sch h1 hne
    rw [gen_digestRuns_some companies r wk ga df env w sch h1] at hne
    by_cases hc : (sch.digest_sent = false ∧
        sch.sessions.any (fun s => s.status.isTerminal) = true)
    · refine ⟨hc.1, ?_⟩
      simpa using hc.2
    · rw [if_neg hc] at hne
      exact absurd rfl hne
  · intro sid outcome t1 t2 env w sch h1 hsent
    cases hfind : findSession sch.sessions sid with
    | none =>
      rw [run_session_no_session sid outcome t1 t2 env w sch h1 hfind]
    | some sess =>
      by_cases hp : sess.status = Status.pending
      · rw [run_session_pending_eq sid outcome t1 t2 env w sch sess h1 hfind
          hp]
        have hguard : ¬(all_sessions_done
            (step_finished (step_in_progress sch sid t1) sid outcome t2) =
              true ∧
          (step_finished (step_in_progress sch sid t1) sid outcome
            t2).digest_sent = false) := by
          intro hcc
          have h' : sch.digest_sent = false := hcc.2
          rw [hsent] at h'
          exact Bool.noConfusion h'
        rw [if_neg hguard]
        rfl
      · rw [run_session_skip_guard sid outcome t1 t2 env w sch sess h1 hfind
          hp]
  · intro companies r wk ga df env w sch h1 hsent
    rw [gen_digestRuns_some companies r wk ga df env w sch h1]
    rw [if_neg]
    intro hcc
    have h' := hcc.1
    rw [hsent] at h'
    exact Bool.noConfusion h'

/-- Witness for the amended C1: `run_session` completing the only session of
`exWorldPend` enters the digest path, and the persisted document then shows
`digest_sent = true` with every session terminal. -/
theorem digest_flip_guarded_witness :
    exSchedPend.digest_sent = false ∧
    all_sessions_done
      { exSchedPend with
        digest_sent := true,
        sessions := [markFinished true 6 (markStarted 5 exPendA)] } =
      true :=
  ⟨(digest_flip_guarded.1 "a" true 5 6 [] exWorldPend exSchedPend rfl
      (by decide)).1,
   ((digest_flip_guarded.1 "a" true 5 6 [] exWorldPend exSchedPend rfl
      (by decide)).2
     { exSchedPend with
       digest_sent := true,
       sessions := [markFinished true 6 (markStarted 5 exPendA)] }
     (by decide)).2⟩

/-- C1 counterexample: `generate_and_install`'s safety net enters the digest
path and persists `digest_sent = true` on `exSchedMixed` although its second
session is still `pending` — refuting "no operation sets digest_sent to true
while any session is still pending". -/
theorem digest_sent_safety_net_fires_with_pending :
    exSchedMixed.digest_sent = false ∧
    (generate_and_install [] [] "2026-01-12" "2026-01-11T22:00:00"
        (fun _ => "") [] exWorldMixed).scheduleFile =
      some { exSchedMixed with digest_sent := true } ∧
    all_sessions_done { exSchedMixed with digest_sent := true } = false ∧
    (generate_and_install [] [] "2026-01-12" "2026-01-11T22:00:00"
        (fun _ => "") [] exWorldMixed).digestRuns = 1 := by
  decide

/-- C8 (amended): with an empty company list `generate_and_install` creates
no new Schedule; the prior document is field-for-field unchanged when it is
absent, already digest-sent, or has no terminal session — but when the
safety net applies (digest unsent and at least one terminal session) the
prior document is re-persisted with `digest_sent` set to true before the
empty list is discovered. -/
theorem generate_empty_frame :
    (∀ (r : Entropy) (wk ga : String) (df : Nat → String) (env : List Char)
        (w : World), w.scheduleFile = none →
      (generate_and_install [] r wk ga df env w).scheduleFile = none) ∧
    (∀ (r : Entropy) (wk ga : String) (df : Nat → String) (env : List Char)
        (w : World) (old : Schedule), w.scheduleFile = some old →
      old.digest_sent = true →
      (generate_and_install [] r wk ga df env w).scheduleFile = some old) ∧
    (∀ (r : Entropy) (wk ga : String) (df : Nat → String) (env : List Char)
        (w : World) (old : Schedule), w.scheduleFile = some old →
      old.sessions.any (fun s => s.status.isTerminal) = false →
      (generate_and_install [] r wk ga df env w).scheduleFile = some old) ∧
    (∀ (r : Entropy) (wk ga : String) (df : Nat → String) (env : List Char)
        (w : World) (old : Schedule), w.scheduleFile = some old →
      old.digest_sent = false →
      old.sessions.any (fun s => s.status.isTerminal) = true →
      (generate_and_install [] r wk ga df env w).scheduleFile =
        some { old with digest_sent := true }) := by
  refine ⟨?_, ?_, ?_, ?_⟩
  · intro r wk ga df env w h
    exact gen_file_empty_none r wk ga df env w h
  · intro r wk ga df env w old h hd
    rw [gen_file_empty_some r wk ga df env w old h, if_neg]
    intro hcc
    have h' := hcc.1
    rw [hd] at h'
    exact Bool.noConfusion h'
  · intro r wk ga df env w old h hterm
    rw [gen_file_empty_some r wk ga df env w old h, if_neg]
    intro hcc
    have h' := hcc.2
    rw [hterm] at h'
    exact Bool.noConfusion h'
  · intro r wk ga df env w old h hd hterm
    rw [gen_file_empty_some r wk ga df env w old h, if_pos ⟨hd, hterm⟩]

/-- Witness for the amended C8: a prior already-sent schedule survives an
empty-list generation field-for-field. -/
theorem generate_empty_frame_witness :
    (generate_and_install [] [] "2026-01-12" "2026-01-11T22:00:00"
        (fun _ => "") [] exWorldSent).scheduleFile = some exSchedSent :=
  generate_empty_frame.2.1 [] "2026-01-12" "2026-01-11T22:00:00"
    (fun _ => "") [] exWorldSent exSchedSent rfl rfl

/-- C8 counterexample: with an empty company list but a prior schedule
holding one completed session and an unsent digest, `generate_and_install`
does modify the prior document (its `digest_sent` flips to true), refuting
"the prior Schedule document is left untouched (field-for-field
identical)". -/
theorem generate_empty_mutates_prior :
    (generate_and_install [] [] "2026-01-12" "2026-01-11T22:00:00"
        (fun _ => "") [] exWorldDone).scheduleFile ≠
      exWorldDone.scheduleFile := by
  decide

/-- C10: when `EMAIL_RECIPIENTS` is empty or unset (it parses to zero
recipients), the completion path never invokes the digest-send collaborator,
yet still sets and persists `digest_sent = true`, still empties the
`data/input` and `data/output` directories, and still removes every
session-tagged crontab entry. -/
theorem cleanup_no_recipients (schedule : Schedule) (env : List Char)
    (w : World) (h : parseRecipients env = []) :
    (send_digest_and_cleanup schedule env w).digestCalls = w.digestCalls ∧
    (send_digest_and_cleanup schedule env w).scheduleFile =
      some { schedule with digest_sent := true } ∧
    { schedule with digest_sent := true } ∈
      (send_digest_and_cleanup schedule env w).saves ∧
    (send_digest_and_cleanup schedule env w).inputFiles = [] ∧
    (send_digest_and_cleanup schedule env w).outputFiles = [] ∧
    ∀ e ∈ (send_digest_and_cleanup schedule env w).crontab,
      isSessionCron e = false := by
  rw [sdac_eq schedule env w]
  refine ⟨by simp [h], rfl, by simp, rfl, rfl, ?_⟩
  intro e he
  simp only [List.mem_filter, Bool.not_eq_true'] at he
  exact he.2

/-- Witness for C10 with the unset (empty) environment variable. -/
theorem cleanup_no_recipients_witness :
    (send_digest_and_cleanup exSchedMixed [] exWorldMixed).digestCalls =
      exWorldMixed.digestCalls ∧
    (send_digest_and_cleanup exSchedMixed [] exWorldMixed).inputFiles = [] :=
  ⟨(cleanup_no_recipients exSchedMixed [] exWorldMixed rfl).1,
   (cleanup_no_recipients exSchedMixed [] exWorldMixed rfl).2.2.2.1⟩

/-- C9: the claim says `_save_schedule` acquires the exclusive lock before
any byte is written, including before truncating the previous contents.
The code opens with mode `"w"` — which truncates the file on open — and only
then calls `flock(LOCK_EX)`: the event trace passes through a state where
the file is empty and the lock is not held, so a concurrent reader (and
`_load_schedule` takes no lock at all) can observe an empty document,
contradicting the claim and the stated intent that no partial document is
ever observable. -/
theorem save_schedule_truncates_before_lock :
    (FileContent.empty, false) ∈
      fileStates (FileContent.oldDoc, false) saveScheduleEvents ∧
    FileEvent.lockExclusive ∉ loadScheduleEvents := by
  decide
